import Mathlib

/-!
Verification development for the local-services-events-api repository.

The repository is a FastAPI query-routing gateway (`src/app.py`) over two
upstream providers, plus a module of pure-ish formatters (`src/utils.py`).
This file gives a shallow embedding of the formatters, the classifier
post-processing, the two provider adapters and the dispatcher, and proves
properties about them.  External effects (LLM calls, HTTP calls) are
modelled as oracle fields of a `World` structure; a Python exception is
modelled as `Except.error` carrying the exception's message string, and a
function that can raise is `Option`/`Except`-valued.
-/

/-! ### Character and string helpers (Python semantics, ASCII-scoped) -/

/-- An ASCII decimal digit, the model of the regex classes used by
`_strptime` for the format `%Y-%m-%dT%H:%M:%SZ`.  (CPython's `\d` also
matches non-ASCII Unicode decimal digits; such inputs are outside the
scope of this model.) -/
def isDig (c : Char) : Bool := 48 ≤ c.toNat && c.toNat ≤ 57

/-- Python `str.isdigit` for a single character.  Real `str.isdigit`
accepts every Unicode decimal digit; the model covers the ASCII digits
and, as a representative non-ASCII block, the Arabic-Indic digits
U+0660–U+0669 (which Python does accept). -/
def pyIsDigit (c : Char) : Bool :=
  (48 ≤ c.toNat && c.toNat ≤ 57) || (0x660 ≤ c.toNat && c.toNat ≤ 0x669)

/-- The ASCII whitespace characters stripped by Python `str.strip()`
(space, tab, newline, carriage return, vertical tab, form feed). -/
def pyWhitespace (c : Char) : Bool :=
  c == ' ' || c == '\t' || c == '\n' || c == '\r' || c == '\x0b' || c == '\x0c'

/-- Python `str.strip()`: drop leading and trailing whitespace. -/
def pyStrip (s : String) : String :=
  String.mk (((s.data.dropWhile pyWhitespace).reverse.dropWhile pyWhitespace).reverse)

/-- ASCII lower-casing of one character (model of `str.lower`, which the
classifier only ever applies before matching the ASCII words "event" and
"location"). -/
def lowerChar (c : Char) : Char :=
  if 65 ≤ c.toNat && c.toNat ≤ 90 then Char.ofNat (c.toNat + 32) else c

/-- Python `str.lower()` (ASCII-scoped). -/
def pyLower (s : String) : String := String.mk (s.data.map lowerChar)

/-- `isPre pat l` holds when `pat` is an initial segment of `l`. -/
def isPre : List Char → List Char → Bool
  | [], _ => true
  | _ :: _, [] => false
  | a :: pat, b :: l => a == b && isPre pat l

/-- `listContains pat l`: `pat` occurs as a contiguous run inside `l`
(Python's `pat in l` substring test). -/
def listContains (pat : List Char) : List Char → Bool
  | [] => isPre pat []
  | c :: rest => isPre pat (c :: rest) || listContains pat rest

/-- Python's `sub in s` substring containment on strings. -/
def strContains (s sub : String) : Bool := listContains sub.data s.data

/-- The digit character for `k` (`0 ≤ k ≤ 9`). -/
def dChar (k : Nat) : Char := Char.ofNat (48 + k)

/-- Numeric value of a run of digit characters, as `int()` computes it. -/
def digitsVal (l : List Char) : Nat := l.foldl (fun a c => 10 * a + (c.toNat - 48)) 0

/-- Two-digit zero-padded rendering (`%d`, `%H`, `%M` and the strict
two-digit fields of the input format). -/
def pad2 (n : Nat) : List Char := [dChar (n / 10), dChar (n % 10)]

/-- Four-digit zero-padded rendering of a year. -/
def pad4 (n : Nat) : List Char :=
  [dChar (n / 1000), dChar (n / 100 % 10), dChar (n / 10 % 10), dChar (n % 10)]

/-! ### `utils.format_datetime`

`format_datetime` is `datetime.strptime(s, '%Y-%m-%dT%H:%M:%SZ')`, a shift
by `timedelta(hours=8)`, and `strftime('%d %b %Y @ %H%M HRS')`.  The
parser below reproduces `_strptime`'s compiled regular expression for
that format: `%Y` is exactly four digits; `%m` is `1[0-2]|0[1-9]|[1-9]`;
`%d` is `3[01]|[12]\d|0[1-9]|[1-9]`; `%H` is `2[0-3]|[0-1]\d|\d`; `%M` is
`[0-5]\d|\d`; `%S` is `6[0-1]|[0-5]\d|\d`; the literal separators are
matched case-insensitively (so `t`/`z` are accepted), and the whole
string must be consumed.  Because every numeric field is followed by a
non-digit literal (or the end of input), each field consumes exactly the
maximal digit run at its position, so the alternations reduce to the
length/range tests used here.  The `datetime` constructor then validates
the calendar date and rejects the leap seconds 60/61 that the `%S` regex
admits. -/

/-- A parsed (naive) datetime value. -/
structure DT where
  y : Nat
  m : Nat
  d : Nat
  h : Nat
  mi : Nat
  s : Nat
  deriving DecidableEq, Repr

/-- Split off the maximal leading run of ASCII digits. -/
def digitSpan : List Char → List Char × List Char
  | [] => ([], [])
  | c :: cs =>
    if isDig c then
      let p := digitSpan cs
      (c :: p.1, p.2)
    else ([], c :: cs)

/-- Parse one numeric field: a run of one digit with value at least `lo`,
or of two digits with value in `[lo, hi2]` (the reduction of the
`_strptime` alternations described above). -/
def parseNumField (lo hi2 : Nat) (l : List Char) : Option (Nat × List Char) :=
  let p := digitSpan l
  let v := digitsVal p.1
  if (p.1.length = 1 ∧ lo ≤ v) ∨ (p.1.length = 2 ∧ lo ≤ v ∧ v ≤ hi2) then
    some (v, p.2)
  else none

/-- Parse the `%Y` field: exactly four digits. -/
def parseYear4 (l : List Char) : Option (Nat × List Char) :=
  let p := digitSpan l
  if p.1.length = 4 then some (digitsVal p.1, p.2) else none

/-- Expect one of two literal characters (the case-insensitive literal
match of `_strptime`'s compiled pattern). -/
def expectCI (a b : Char) : List Char → Option (List Char)
  | [] => none
  | c :: rest => if c = a ∨ c = b then some rest else none

/-- The full regex phase of `strptime(s, '%Y-%m-%dT%H:%M:%SZ')`. -/
def parseISO (l : List Char) : Option DT :=
  match parseYear4 l with
  | none => none
  | some (y, l1) =>
    match expectCI '-' '-' l1 with
    | none => none
    | some l2 =>
      match parseNumField 1 12 l2 with
      | none => none
      | some (m, l3) =>
        match expectCI '-' '-' l3 with
        | none => none
        | some l4 =>
          match parseNumField 1 31 l4 with
          | none => none
          | some (d, l5) =>
            match expectCI 'T' 't' l5 with
            | none => none
            | some l6 =>
              match parseNumField 0 23 l6 with
              | none => none
              | some (h, l7) =>
                match expectCI ':' ':' l7 with
                | none => none
                | some l8 =>
                  match parseNumField 0 59 l8 with
                  | none => none
                  | some (mi, l9) =>
                    match expectCI ':' ':' l9 with
                    | none => none
                    | some l10 =>
                      match parseNumField 0 61 l10 with
                      | none => none
                      | some (sec, l11) =>
                        match expectCI 'Z' 'z' l11 with
                        | none => none
                        | some l12 =>
                          if l12 = [] then some ⟨y, m, d, h, mi, sec⟩ else none

/-- Gregorian leap year, as `datetime` implements it. -/
def isLeap (y : Nat) : Bool := y % 4 = 0 && (y % 100 ≠ 0 || y % 400 = 0)

/-- Days in a month of the proleptic Gregorian calendar. -/
def daysInMonth (y m : Nat) : Nat :=
  if m = 2 then (if isLeap y then 29 else 28)
  else if m = 4 ∨ m = 6 ∨ m = 9 ∨ m = 11 then 30
  else 31

/-- The extra validation done by the `datetime` constructor after the
regex phase: the year must be at least 1 (`MINYEAR`), the day must fit
the month, and seconds 60/61 (admitted by the `%S` regex) are rejected. -/
def ctorOk (dt : DT) : Bool :=
  1 ≤ dt.y && dt.d ≤ daysInMonth dt.y dt.m && dt.s ≤ 59

/-- `datetime.strptime(s, '%Y-%m-%dT%H:%M:%SZ')`; `none` models the
`ValueError` the call raises on failure. -/
def strptimeZ (s : String) : Option DT :=
  match parseISO s.data with
  | none => none
  | some dt => if ctorOk dt then some dt else none

/-- `dt + timedelta(hours=8)`.  `none` models the `OverflowError` raised
when the result would leave `datetime`'s supported range (year 9999). -/
def addEightHours (dt : DT) : Option DT :=
  if dt.h + 8 ≤ 23 then some { dt with h := dt.h + 8 }
  else
    let h2 := dt.h + 8 - 24
    if dt.d < daysInMonth dt.y dt.m then some { dt with d := dt.d + 1, h := h2 }
    else if dt.m < 12 then some { dt with m := dt.m + 1, d := 1, h := h2 }
    else if dt.y < 9999 then some { dt with y := dt.y + 1, m := 1, d := 1, h := h2 }
    else none

/-- C-locale `%b` month abbreviations. -/
def monthAbbr (m : Nat) : String :=
  (["Jan", "Feb", "Mar", "Apr", "May", "Jun",
    "Jul", "Aug", "Sep", "Oct", "Nov", "Dec"]).getD (m - 1) ""

/-- `strftime('%d %b %Y @ %H%M HRS')` (glibc renders `%Y` without
padding; the years reached here are four-digit anyway). -/
def renderOut (dt : DT) : String :=
  String.mk (pad2 dt.d) ++ " " ++ monthAbbr dt.m ++ " " ++ Nat.repr dt.y ++
    " @ " ++ String.mk (pad2 dt.h) ++ String.mk (pad2 dt.mi) ++ " HRS"

/-- `utils.format_datetime`.  `none` models a raised exception
(`ValueError` from `strptime`, or `OverflowError` from the shift). -/
def format_datetime (s : String) : Option String :=
  match strptimeZ s with
  | none => none
  | some dt =>
    match addEightHours dt with
    | none => none
    | some dt2 => some (renderOut dt2)

/-- `format_datetime` as it appears inside the event adapter, where a
failure is a raised exception carrying a message (CPython's message also
embeds the offending data; the constant prefix is kept). -/
def format_datetimeE (s : String) : Except String String :=
  match format_datetime s with
  | some out => Except.ok out
  | none => Except.error ("time data does not match format: " ++ s)

/-! ### `utils.event_search_URL` -/

/-- `utils.event_search_URL`: replace spaces with `+` and prepend the
fixed web-search base URL. -/
def event_search_URL (event_title : String) : String :=
  "https://www.google.com/search?q=" ++ event_title.replace " " "+"

/-! ### `utils.format_contact_number` -/

/-- `utils.format_contact_number`.  The input is a string or Python
`None` (`Option.none`).  The code removes space characters only
(`.replace(" ", "")`), requires exactly eight characters all accepted by
`str.isdigit`, and renders `+65-XXXX-XXXX`; otherwise it returns the
literal string `"None"`. -/
def format_contact_number : Option String → String
  | none => "None"
  | some number =>
    let cleaned := number.data.filter (fun c => !(c == ' '))
    if cleaned.length = 8 ∧ cleaned.all pyIsDigit then
      "+65-" ++ String.mk (cleaned.take 4) ++ "-" ++ String.mk (cleaned.drop 4)
    else "None"

/-! ### `utils.format_opening_hours`

The periods come from JSON; a missing key is `Option.none`, and reading a
missing key raises `KeyError`, modelled by `Except.error ()`.  The
`try/except` of the source recovers any such error to the empty mapping. -/

/-- The value of one `open`/`close` entry: its `day` and `time` keys (a
missing key is `none`). -/
structure OpenClose where
  day : Option Int := none
  time : Option String := none
  deriving DecidableEq, Repr

/-- One element of the `periods` list; the `open` and `close` keys may be
missing. -/
structure Period where
  «open» : Option OpenClose := none
  close : Option OpenClose := none
  deriving DecidableEq, Repr

/-- The `opening_hours` dictionary: its `periods` key may be missing
(`.get('periods', [])` then defaults to the empty list). -/
structure OpeningHours where
  periods : Option (List Period) := none
  deriving DecidableEq, Repr

/-- Python dictionary subscript access: raise `KeyError` on a missing key. -/
def reqKey : Option α → Except Unit α
  | some a => Except.ok a
  | none => Except.error ()

/-- Python dict assignment `d[k] = v` on an insertion-ordered
association list: overwrite in place if present, else append. -/
def setKey : List (String × String) → String → String → List (String × String)
  | [], k, v => [(k, v)]
  | (k1, v1) :: rest, k, v =>
    if k1 = k then (k, v) :: rest else (k1, v1) :: setKey rest k v

/-- Lookup in the association list. -/
def lookupKey : List (String × String) → String → Option String
  | [], _ => none
  | (k1, v1) :: rest, k => if k1 = k then some v1 else lookupKey rest k

/-- The fixed day-abbreviation table `days_map` (day 0 = Sunday). -/
def dayNames : List String := ["Sun", "Mon", "Tue", "Wed", "Thu", "Fri", "Sat"]

/-- A left fold in the `KeyError` monad: the loop body of the source,
which aborts at the first missing key. -/
def foldE (f : σ → α → Except Unit σ) : σ → List α → Except Unit σ
  | s, [] => Except.ok s
  | s, a :: rest =>
    match f s a with
    | Except.error e => Except.error e
    | Except.ok s2 => foldE f s2 rest

/-- The body of the inner loop of `format_opening_hours` for one period:
read `period['open']['day']`, compare with the current day, and on a
match read the two times and assign `week_hours[day_name]`. -/
def processPeriod (day : Nat) (acc : List (String × String)) (p : Period) :
    Except Unit (List (String × String)) :=
  match reqKey p.«open» with
  | Except.error e => Except.error e
  | Except.ok o =>
    match reqKey o.day with
    | Except.error e => Except.error e
    | Except.ok d =>
      if d = Int.ofNat day then
        match reqKey o.time with
        | Except.error e => Except.error e
        | Except.ok ot =>
          match reqKey p.close with
          | Except.error e => Except.error e
          | Except.ok c =>
            match reqKey c.time with
            | Except.error e => Except.error e
            | Except.ok ct =>
              Except.ok (setKey acc (dayNames.getD day "") (ot ++ "-" ++ ct))
      else Except.ok acc

/-- The `try` block of `format_opening_hours`: both nested loops. -/
def openingHoursLoop (oh : OpeningHours) : Except Unit (List (String × String)) :=
  foldE (fun acc day => foldE (processPeriod day) acc (oh.periods.getD []))
    [] (List.range 7)

/-- `utils.format_opening_hours`: the nested loops with the `except`
clause recovering any `KeyError` to the empty mapping. -/
def format_opening_hours (oh : OpeningHours) : List (String × String) :=
  match openingHoursLoop oh with
  | Except.ok m => m
  | Except.error _ => []

/-! ### `app.py`: classifier post-processing

Each classifier builds a prompt, makes one LLM call, and post-processes
the response text.  The LLM call is an external effect; the functions
below are the post-processing applied to the response text
(`response.text`). -/

/-- `app.classify_user_query`, as a function of the LLM response text:
`response.text.strip().lower()`, then return `'event'` if the substring
`"event"` occurs, else `'location'` if `"location"` occurs, else the
default `'location'`. -/
def classify_user_query (responseText : String) : String :=
  let classification := pyLower (pyStrip responseText)
  if strContains classification "event" then "event"
  else if strContains classification "location" then "location"
  else "location"

/-- `app.classify_event`, as a function of the LLM response text: the
source returns `response.text` unchanged (no `.strip()`, no validation
against the category vocabulary). -/
def classify_event (responseText : String) : String := responseText

/-- The eleven-way event-category vocabulary listed in the
`classify_event` prompt. -/
def eventCategories : List String :=
  ["academic", "community", "concerts", "conferences", "expos", "festivals",
   "observances", "performing-arts", "public-holidays", "school-holidays", "sports"]

/-! ### `app.py`: data model of the adapters and dispatcher -/

/-- A raw PredictHQ event record, with the fields the adapter reads.
`location` is kept as an opaque token consumed by the geocoding oracle;
`description` is `event.get('description', ...)`, so a missing key is
`none`. -/
structure RawEvent where
  title : String
  start : String
  «end» : String
  location : String
  description : Option String := none
  deriving DecidableEq, Repr

/-- A raw Google Places text-search result; the adapter only reads its
`place_id`. -/
structure RawPlace where
  place_id : String
  deriving DecidableEq, Repr

/-- The place-details record, with the fields the adapter reads via
`.get` (a missing key is `none`; `opening_hours` defaults to `{}` and
`types` to `[]`). -/
structure PlaceDetails where
  name : Option String := none
  formatted_address : Option String := none
  opening_hours : OpeningHours := {}
  formatted_phone_number : Option String := none
  types : List String := []
  url : Option String := none
  deriving DecidableEq, Repr

/-- A normalized event result (the six-key dictionary built by the event
adapter). -/
structure EventRecord where
  Title : String
  StartDateTime : String
  EndDateTime : String
  Location : String
  Description : String
  Citation : String
  deriving DecidableEq, Repr

/-- A normalized place result.  `Citation` is a list of optional strings
because `[place_details.get('url')]` can contain Python `None`;
`TopOfferings` is present only when the configuration flag is on. -/
structure PlaceRecord where
  Name : Option String
  Address : Option String
  OpeningHours : List (String × String)
  Description : String
  ContactNumber : String
  Citation : List (Option String)
  TopOfferings : Option (List (String × String)) := none
  deriving DecidableEq, Repr

/-- JSON bodies the endpoint can produce: a list of normalized records,
a `{"message": ...}` object, a bare integer (a smuggled status code
serialized as JSON), or a `{"detail": ...}` error object from an
`HTTPException`. -/
inductive Body where
  | eventsList (l : List EventRecord)
  | placesList (l : List PlaceRecord)
  | message (s : String)
  | intVal (n : Nat)
  | detail (s : String)
  deriving DecidableEq, Repr

/-- An HTTP response: status code and JSON body. -/
structure Response where
  status : Nat
  body : Body
  deriving DecidableEq, Repr

/-- The external world of one request: the configuration values and one
oracle per external call (LLM responses, upstream HTTP outcomes).  An
`Except.error` oracle outcome models the call raising an exception. -/
structure World where
  classifyResp : Except String String
  categoryResp : Except String String
  eventsStatus : Nat
  eventsResults : List RawEvent
  geocodeResp : String → Except String String
  eventDescResp : String → String → Except String String
  placesSearch : List RawPlace
  placeDetails : String → Except String PlaceDetails
  placeDescResp : Option String → List String → Except String String
  offeringsResp : Option String → Except String String
  placesLimit : Nat
  includeOfferings : Bool

/-- Sequential `map` in the exception monad: the per-record loop of each
adapter, which aborts at the first raised exception. -/
def mapE (f : α → Except String β) : List α → Except String (List β)
  | [] => Except.ok []
  | a :: rest =>
    match f a with
    | Except.error e => Except.error e
    | Except.ok b =>
      match mapE f rest with
      | Except.error e => Except.error e
      | Except.ok bs => Except.ok (b :: bs)

/-- `app.generate_event_description`, as a function of its inputs and the
LLM oracle: strip the known boilerplate prefix, then one LLM call. -/
def generate_event_description (w : World) (name desc : String) : Except String String :=
  w.eventDescResp name (desc.replace "Sourced from predicthq.com - " "")

/-- The per-event normalization performed in the loop of
`fetch_events_from_predicthq`, in the evaluation order of the source's
dictionary literal. -/
def normalizeEvent (w : World) (e : RawEvent) : Except String EventRecord :=
  match format_datetimeE e.start with
  | Except.error er => Except.error er
  | Except.ok sf =>
    match format_datetimeE e.«end» with
    | Except.error er => Except.error er
    | Except.ok ef =>
      match w.geocodeResp e.location with
      | Except.error er => Except.error er
      | Except.ok addr =>
        match generate_event_description w e.title (e.description.getD "No description") with
        | Except.error er => Except.error er
        | Except.ok desc =>
          Except.ok ⟨e.title, sf, ef, addr, desc, event_search_URL e.title⟩

/-- `app.fetch_events_from_predicthq`: classify the category (the raw
LLM text is used as the filter parameter), call the events API, and on
HTTP 200 normalize each raw record; on any other status return the
status code itself as a sentinel value (`Sum.inr`). -/
def fetch_events_from_predicthq (w : World) :
    Except String (Sum (List EventRecord) Nat) :=
  match w.categoryResp with
  | Except.error e => Except.error e
  | Except.ok catText =>
    let _event_category := classify_event catText
    if w.eventsStatus = 200 then
      match mapE (normalizeEvent w) w.eventsResults with
      | Except.error e => Except.error e
      | Except.ok recs => Except.ok (Sum.inl recs)
    else Except.ok (Sum.inr w.eventsStatus)

/-- Python `str.split(',')` on the offerings text, keeping segments that
contain a colon, split at the first colon, both sides stripped. -/
def parseOfferings (txt : String) : List (String × String) :=
  (txt.splitOn ",").foldl
    (fun acc seg =>
      match seg.splitOn ":" with
      | [] => acc
      | [_] => acc
      | key :: rest => acc ++ [(pyStrip key, pyStrip (String.intercalate ":" rest))])
    []

/-- The per-place normalization of `fetch_locations_from_gplaces`: the
details lookup, the field extractions and formatter calls, the LLM
description, and the optional offerings enrichment. -/
def normalizePlace (w : World) (p : RawPlace) : Except String PlaceRecord :=
  match w.placeDetails p.place_id with
  | Except.error e => Except.error e
  | Except.ok det =>
    let oh := format_opening_hours det.opening_hours
    let phone := format_contact_number det.formatted_phone_number
    let citation := [det.url]
    match w.placeDescResp det.name det.types with
    | Except.error e => Except.error e
    | Except.ok desc =>
      let base : PlaceRecord :=
        ⟨det.name, det.formatted_address, oh, desc, phone, citation, none⟩
      if w.includeOfferings then
        match w.offeringsResp det.name with
        | Except.error e => Except.error e
        | Except.ok txt => Except.ok { base with TopOfferings := some (parseOfferings txt) }
      else Except.ok base

/-- `app.fetch_locations_from_gplaces`: text search; on zero results
return the 404 `JSONResponse` sentinel object (`Sum.inr`), otherwise
normalize the top `GOOGLE_PLACES_LIMIT` results. -/
def fetch_locations_from_gplaces (w : World) :
    Except String (Sum (List PlaceRecord) Response) :=
  if w.placesSearch.isEmpty then
    Except.ok (Sum.inr ⟨404, Body.message "No results found."⟩)
  else
    match mapE (normalizePlace w) (w.placesSearch.take w.placesLimit) with
    | Except.error e => Except.error e
    | Except.ok recs => Except.ok (Sum.inl recs)

/-- Python truthiness of the event adapter's return value, as tested by
`if not events_data:`: an empty list is falsy, a non-empty list is
truthy, and an `int` sentinel is falsy only when it is zero. -/
def pyFalsyEvents : Sum (List EventRecord) Nat → Bool
  | Sum.inl l => l.isEmpty
  | Sum.inr n => n = 0

/-- `JSONResponse(content=events_data)` in the dispatcher's event branch:
a list of records and a bare integer both serialize (status 200 by
default). -/
def jsonResponseEvents : Sum (List EventRecord) Nat → Except String Response
  | Sum.inl l => Except.ok ⟨200, Body.eventsList l⟩
  | Sum.inr n => Except.ok ⟨200, Body.intVal n⟩

/-- `JSONResponse(content=response_data)` in the dispatcher's location
branch.  When the adapter returned its `JSONResponse` sentinel, the
constructor's `json.dumps` raises
`TypeError: Object of type JSONResponse is not JSON serializable`. -/
def jsonResponsePlaces : Sum (List PlaceRecord) Response → Except String Response
  | Sum.inl l => Except.ok ⟨200, Body.placesList l⟩
  | Sum.inr _ => Except.error "Object of type JSONResponse is not JSON serializable"

/-- The `try` block of the `/search` endpoint. -/
def searchTry (w : World) : Except String Response :=
  match w.classifyResp with
  | Except.error e => Except.error e
  | Except.ok respText =>
    let classification := classify_user_query respText
    if classification = "event" then
      match fetch_events_from_predicthq w with
      | Except.error e => Except.error e
      | Except.ok events_data =>
        if pyFalsyEvents events_data then
          Except.ok ⟨404, Body.message "No upcoming events found."⟩
        else jsonResponseEvents events_data
    else
      match fetch_locations_from_gplaces w with
      | Except.error e => Except.error e
      | Except.ok response_data => jsonResponsePlaces response_data

/-- `app.search` (`GET /search`): the `try` block, with any raised
exception converted at the outermost boundary into
`HTTPException(status_code=500, detail=str(e))`. -/
def search (w : World) : Response :=
  match searchTry w with
  | Except.ok r => r
  | Except.error e => ⟨500, Body.detail e⟩

/-! ### Specification-side definitions for the timestamp claims -/

/-- A run of ASCII digit characters. -/
def digitRun (run : List Char) : Prop := ∀ c ∈ run, isDig c = true

/-- The head of the list, if any, is not a digit. -/
def headNotDig : List Char → Prop
  | [] => True
  | c :: _ => isDig c = false

/-- Acceptance condition of one numeric field of the compiled
`_strptime` pattern, as a predicate on the digit run it consumes. -/
def fieldOk (lo hi2 : Nat) (run : List Char) : Prop :=
  (run.length = 1 ∧ lo ≤ digitsVal run) ∨
    (run.length = 2 ∧ lo ≤ digitsVal run ∧ digitsVal run ≤ hi2)

/-- The inputs accepted by the regex phase of
`strptime(s, '%Y-%m-%dT%H:%M:%SZ')`, stated structurally: six digit runs
joined by the literal separators (`T`/`Z` case-insensitively), the year
run exactly four digits, the other runs one or two digits within the
ranges of the compiled alternations, with `dt` the decoded value. -/
def LenientISO (l : List Char) (dt : DT) : Prop :=
  ∃ ry rm rd rh ri rs : List Char, ∃ tc zc : Char,
    l = ry ++ '-' :: (rm ++ '-' :: (rd ++ tc :: (rh ++ ':' :: (ri ++ ':' :: (rs ++ [zc]))))) ∧
    digitRun ry ∧ ry.length = 4 ∧
    digitRun rm ∧ fieldOk 1 12 rm ∧
    digitRun rd ∧ fieldOk 1 31 rd ∧
    (tc = 'T' ∨ tc = 't') ∧
    digitRun rh ∧ fieldOk 0 23 rh ∧
    digitRun ri ∧ fieldOk 0 59 ri ∧
    (zc = 'Z' ∨ zc = 'z') ∧
    digitRun rs ∧ fieldOk 0 61 rs ∧
    dt = ⟨digitsVal ry, digitsVal rm, digitsVal rd, digitsVal rh, digitsVal ri, digitsVal rs⟩

/-- The format the claim describes: exactly `YYYY-MM-DDTHH:MM:SSZ` with
two-digit fields, upper-case separators, and a valid calendar
date-time.  (Written from the claim's words, for comparison with the
code's actual parser.) -/
def strictISOFormat (s : String) : Bool :=
  match s.data with
  | [y1, y2, y3, y4, c1, m1, m2, c2, d1, d2, ct, h1, h2, c3, i1, i2, c4, s1, s2, cz] =>
    c1 == '-' && c2 == '-' && ct == 'T' && c3 == ':' && c4 == ':' && cz == 'Z' &&
    ([y1, y2, y3, y4, m1, m2, d1, d2, h1, h2, i1, i2, s1, s2].all isDig) &&
    (let y := digitsVal [y1, y2, y3, y4]
     let m := digitsVal [m1, m2]
     let d := digitsVal [d1, d2]
     let hh := digitsVal [h1, h2]
     let mm := digitsVal [i1, i2]
     let ss := digitsVal [s1, s2]
     decide (1 ≤ y) && decide (1 ≤ m) && decide (m ≤ 12) && decide (1 ≤ d) &&
       decide (d ≤ daysInMonth y m) && decide (hh ≤ 23) && decide (mm ≤ 59) && decide (ss ≤ 59))
  | _ => false

/-- The strict `YYYY-MM-DDTHH:MM:SSZ` rendering of a datetime value. -/
def isoStrict (y m d h mi s : Nat) : String :=
  String.mk (pad4 y ++ '-' :: (pad2 m ++ '-' :: (pad2 d ++ 'T' ::
    (pad2 h ++ ':' :: (pad2 mi ++ ':' :: (pad2 s ++ ['Z']))))))

/-! ### Lemmas about digit runs and the parser -/

theorem headNotDig_cons {c : Char} {l : List Char} (h : isDig c = false) :
    headNotDig (c :: l) := h

theorem digitSpan_decomp (l : List Char) :
    (digitSpan l).1 ++ (digitSpan l).2 = l ∧ digitRun (digitSpan l).1 ∧
      headNotDig (digitSpan l).2 := by
  induction l with
  | nil => exact ⟨rfl, fun c hc => absurd hc (List.not_mem_nil c), trivial⟩
  | cons c cs ih =>
    by_cases h : isDig c = true
    · simp only [digitSpan, h, if_pos]
      refine ⟨by simpa using ih.1, ?_, ih.2.2⟩
      intro a ha
      rcases List.mem_cons.mp ha with rfl | ha
      · exact h
      · exact ih.2.1 a ha
    · simp only [digitSpan, h, if_neg, Bool.false_eq_true, not_false_iff]
      exact ⟨rfl, fun a ha => absurd ha (List.not_mem_nil a),
        headNotDig_cons (Bool.not_eq_true _ ▸ h)⟩

theorem digitSpan_append (r rest : List Char) (h1 : digitRun r) (h2 : headNotDig rest) :
    digitSpan (r ++ rest) = (r, rest) := by
  induction r with
  | nil =>
    cases rest with
    | nil => rfl
    | cons c cs =>
      have : isDig c = false := h2
      simp [digitSpan, this]
  | cons a r ih =>
    have ha : isDig a = true := h1 a (List.mem_cons_self a r)
    have hr : digitRun r := fun c hc => h1 c (List.mem_cons_of_mem a hc)
    simp [digitSpan, ha, ih hr]

theorem parseNumField_sound {lo hi2 : Nat} {l : List Char} {v : Nat} {rest : List Char}
    (h : parseNumField lo hi2 l = some (v, rest)) :
    ∃ run, l = run ++ rest ∧ digitRun run ∧ fieldOk lo hi2 run ∧
      v = digitsVal run ∧ headNotDig rest := by
  unfold parseNumField at h
  dsimp only at h
  split at h
  · rename_i hcond
    injection h with h
    injection h with hv hrest
    subst hv; subst hrest
    obtain ⟨hd, hr, hh⟩ := digitSpan_decomp l
    exact ⟨(digitSpan l).1, hd.symm, hr, hcond, rfl, hh⟩
  · exact absurd h (by simp)

theorem parseNumField_complete {lo hi2 : Nat} (run rest : List Char)
    (h1 : digitRun run) (h2 : headNotDig rest) (h3 : fieldOk lo hi2 run) :
    parseNumField lo hi2 (run ++ rest) = some (digitsVal run, rest) := by
  unfold parseNumField
  rw [digitSpan_append run rest h1 h2]
  exact if_pos h3

theorem parseYear4_sound {l : List Char} {v : Nat} {rest : List Char}
    (h : parseYear4 l = some (v, rest)) :
    ∃ run, l = run ++ rest ∧ digitRun run ∧ run.length = 4 ∧
      v = digitsVal run ∧ headNotDig rest := by
  unfold parseYear4 at h
  dsimp only at h
  split at h
  · rename_i hcond
    injection h with h
    injection h with hv hrest
    subst hv; subst hrest
    obtain ⟨hd, hr, hh⟩ := digitSpan_decomp l
    exact ⟨(digitSpan l).1, hd.symm, hr, hcond, rfl, hh⟩
  · exact absurd h (by simp)

theorem parseYear4_complete (run rest : List Char)
    (h1 : digitRun run) (h2 : headNotDig rest) (h3 : run.length = 4) :
    parseYear4 (run ++ rest) = some (digitsVal run, rest) := by
  unfold parseYear4
  rw [digitSpan_append run rest h1 h2]
  exact if_pos h3

theorem expectCI_sound {a b : Char} {l rest : List Char}
    (h : expectCI a b l = some rest) :
    ∃ c, l = c :: rest ∧ (c = a ∨ c = b) := by
  cases l with
  | nil => exact absurd h (by simp [expectCI])
  | cons c cs =>
    simp only [expectCI] at h
    split at h
    · rename_i hc
      injection h with h
      exact ⟨c, by rw [h], hc⟩
    · exact absurd h (by simp)

theorem expectCI_complete {a b c : Char} (rest : List Char) (h : c = a ∨ c = b) :
    expectCI a b (c :: rest) = some rest := by
  unfold expectCI
  exact if_pos h

theorem parseISO_sound {l : List Char} {dt : DT} (h : parseISO l = some dt) :
    LenientISO l dt := by
  unfold parseISO at h
  cases hy : parseYear4 l with
  | none => rw [hy] at h; exact absurd h (by simp)
  | some py =>
  obtain ⟨y, l1⟩ := py
  rw [hy] at h; dsimp only at h
  cases h1 : expectCI '-' '-' l1 with
  | none => rw [h1] at h; exact absurd h (by simp)
  | some l2 =>
  rw [h1] at h; dsimp only at h
  cases h2 : parseNumField 1 12 l2 with
  | none => rw [h2] at h; exact absurd h (by simp)
  | some pm =>
  obtain ⟨m, l3⟩ := pm
  rw [h2] at h; dsimp only at h
  cases h3 : expectCI '-' '-' l3 with
  | none => rw [h3] at h; exact absurd h (by simp)
  | some l4 =>
  rw [h3] at h; dsimp only at h
  cases h4 : parseNumField 1 31 l4 with
  | none => rw [h4] at h; exact absurd h (by simp)
  | some pd =>
  obtain ⟨d, l5⟩ := pd
  rw [h4] at h; dsimp only at h
  cases h5 : expectCI 'T' 't' l5 with
  | none => rw [h5] at h; exact absurd h (by simp)
  | some l6 =>
  rw [h5] at h; dsimp only at h
  cases h6 : parseNumField 0 23 l6 with
  | none => rw [h6] at h; exact absurd h (by simp)
  | some ph =>
  obtain ⟨hh, l7⟩ := ph
  rw [h6] at h; dsimp only at h
  cases h7 : expectCI ':' ':' l7 with
  | none => rw [h7] at h; exact absurd h (by simp)
  | some l8 =>
  rw [h7] at h; dsimp only at h
  cases h8 : parseNumField 0 59 l8 with
  | none => rw [h8] at h; exact absurd h (by simp)
  | some pi8 =>
  obtain ⟨mi, l9⟩ := pi8
  rw [h8] at h; dsimp only at h
  cases h9 : expectCI ':' ':' l9 with
  | none => rw [h9] at h; exact absurd h (by simp)
  | some l10 =>
  rw [h9] at h; dsimp only at h
  cases h10 : parseNumField 0 61 l10 with
  | none => rw [h10] at h; exact absurd h (by simp)
  | some ps =>
  obtain ⟨sec, l11⟩ := ps
  rw [h10] at h; dsimp only at h
  cases h11 : expectCI 'Z' 'z' l11 with
  | none => rw [h11] at h; exact absurd h (by simp)
  | some l12 =>
  rw [h11] at h; dsimp only at h
  split at h
  case isFalse => exact absurd h (by simp)
  case isTrue hnil =>
  injection h with hdt
  obtain ⟨ry, hly, hryD, hryL, hyv, _⟩ := parseYear4_sound hy
  obtain ⟨c1, hl1, hc1⟩ := expectCI_sound h1
  have hc1e : c1 = '-' := hc1.elim id id
  subst hc1e
  obtain ⟨rm, hl2, hrmD, hrmF, hmv, _⟩ := parseNumField_sound h2
  obtain ⟨c2, hl3, hc2⟩ := expectCI_sound h3
  have hc2e : c2 = '-' := hc2.elim id id
  subst hc2e
  obtain ⟨rd, hl4, hrdD, hrdF, hdv, _⟩ := parseNumField_sound h4
  obtain ⟨tc, hl5, htc⟩ := expectCI_sound h5
  obtain ⟨rh, hl6, hrhD, hrhF, hhv, _⟩ := parseNumField_sound h6
  obtain ⟨c3, hl7, hc3⟩ := expectCI_sound h7
  have hc3e : c3 = ':' := hc3.elim id id
  subst hc3e
  obtain ⟨ri, hl8, hriD, hriF, hiv, _⟩ := parseNumField_sound h8
  obtain ⟨c4, hl9, hc4⟩ := expectCI_sound h9
  have hc4e : c4 = ':' := hc4.elim id id
  subst hc4e
  obtain ⟨rs, hl10, hrsD, hrsF, hsv, _⟩ := parseNumField_sound h10
  obtain ⟨zc, hl11, hzc⟩ := expectCI_sound h11
  subst hnil
  refine ⟨ry, rm, rd, rh, ri, rs, tc, zc, ?_, hryD, hryL, hrmD, hrmF, hrdD, hrdF,
    htc, hrhD, hrhF, hriD, hriF, hzc, hrsD, hrsF, ?_⟩
  · subst hl11 hl10 hl9 hl8 hl7 hl6 hl5 hl4 hl3 hl2 hl1 hly
    rfl
  · rw [← hdt, hyv, hmv, hdv, hhv, hiv, hsv]

theorem parseISO_complete {l : List Char} {dt : DT} (h : LenientISO l dt) :
    parseISO l = some dt := by
  obtain ⟨ry, rm, rd, rh, ri, rs, tc, zc, hl, hryD, hryL, hrmD, hrmF, hrdD, hrdF,
    htc, hrhD, hrhF, hriD, hriF, hzc, hrsD, hrsF, hdt⟩ := h
  have htcD : headNotDig (tc :: (rh ++ ':' :: (ri ++ ':' :: (rs ++ [zc])))) := by
    rcases htc with rfl | rfl <;> exact headNotDig_cons (by decide)
  have hzcD : headNotDig [zc] := by
    rcases hzc with rfl | rfl <;> exact headNotDig_cons (by decide)
  subst hl hdt
  unfold parseISO
  rw [parseYear4_complete ry _ hryD (headNotDig_cons (by decide)) hryL]
  dsimp only
  rw [expectCI_complete _ (Or.inl rfl)]
  dsimp only
  rw [parseNumField_complete rm _ hrmD (headNotDig_cons (by decide)) hrmF]
  dsimp only
  rw [expectCI_complete _ (Or.inl rfl)]
  dsimp only
  rw [parseNumField_complete rd _ hrdD htcD hrdF]
  dsimp only
  rw [expectCI_complete _ htc]
  dsimp only
  rw [parseNumField_complete rh _ hrhD (headNotDig_cons (by decide)) hrhF]
  dsimp only
  rw [expectCI_complete _ (Or.inl rfl)]
  dsimp only
  rw [parseNumField_complete ri _ hriD (headNotDig_cons (by decide)) hriF]
  dsimp only
  rw [expectCI_complete _ (Or.inl rfl)]
  dsimp only
  rw [parseNumField_complete rs _ hrsD hzcD hrsF]
  dsimp only
  rw [expectCI_complete _ hzc]
  dsimp only
  rfl

/-! ### Digit-rendering lemmas -/

theorem dChar_toNat {k : Nat} (h : k ≤ 9) : (dChar k).toNat = 48 + k := by
  interval_cases k <;> rfl

theorem isDig_dChar {k : Nat} (h : k ≤ 9) : isDig (dChar k) = true := by
  unfold isDig
  rw [dChar_toNat h]
  simp only [Bool.and_eq_true, decide_eq_true_eq]
  omega

theorem digitRun_pad2 {n : Nat} (h : n ≤ 99) : digitRun (pad2 n) := by
  intro c hc
  unfold pad2 at hc
  rcases List.mem_cons.mp hc with rfl | hc
  · exact isDig_dChar (by omega)
  · rcases List.mem_cons.mp hc with rfl | hc
    · exact isDig_dChar (by omega)
    · exact absurd hc (List.not_mem_nil c)

theorem digitRun_pad4 {n : Nat} (h : n ≤ 9999) : digitRun (pad4 n) := by
  intro c hc
  unfold pad4 at hc
  rcases List.mem_cons.mp hc with rfl | hc
  · exact isDig_dChar (by omega)
  · rcases List.mem_cons.mp hc with rfl | hc
    · exact isDig_dChar (by omega)
    · rcases List.mem_cons.mp hc with rfl | hc
      · exact isDig_dChar (by omega)
      · rcases List.mem_cons.mp hc with rfl | hc
        · exact isDig_dChar (by omega)
        · exact absurd hc (List.not_mem_nil c)

theorem digitsVal_pad2 {n : Nat} (h : n ≤ 99) : digitsVal (pad2 n) = n := by
  unfold digitsVal pad2
  simp only [List.foldl_cons, List.foldl_nil]
  rw [dChar_toNat (show n / 10 ≤ 9 by omega), dChar_toNat (show n % 10 ≤ 9 by omega)]
  omega

theorem digitsVal_pad4 {n : Nat} (h : n ≤ 9999) : digitsVal (pad4 n) = n := by
  unfold digitsVal pad4
  simp only [List.foldl_cons, List.foldl_nil]
  rw [dChar_toNat (show n / 1000 ≤ 9 by omega), dChar_toNat (show n / 100 % 10 ≤ 9 by omega),
    dChar_toNat (show n / 10 % 10 ≤ 9 by omega), dChar_toNat (show n % 10 ≤ 9 by omega)]
  omega

theorem fieldOk_pad2 {lo hi2 n : Nat} (h1 : lo ≤ n) (h2 : n ≤ hi2) (h3 : n ≤ 99) :
    fieldOk lo hi2 (pad2 n) :=
  Or.inr ⟨rfl, by rw [digitsVal_pad2 h3]; exact h1, by rw [digitsVal_pad2 h3]; exact h2⟩

theorem daysInMonth_le (y m : Nat) : daysInMonth y m ≤ 31 := by
  unfold daysInMonth
  split
  · split <;> omega
  · split <;> omega

theorem lenient_isoStrict (y m d h mi s : Nat) (hy2 : y ≤ 9999) (hm1 : 1 ≤ m) (hm2 : m ≤ 12)
    (hd1 : 1 ≤ d) (hd2 : d ≤ 31) (hh : h ≤ 23) (hmi : mi ≤ 59) (hs : s ≤ 59) :
    LenientISO (isoStrict y m d h mi s).data ⟨y, m, d, h, mi, s⟩ := by
  refine ⟨pad4 y, pad2 m, pad2 d, pad2 h, pad2 mi, pad2 s, 'T', 'Z', rfl,
    digitRun_pad4 hy2, rfl,
    digitRun_pad2 (by omega), fieldOk_pad2 hm1 hm2 (by omega),
    digitRun_pad2 (by omega), fieldOk_pad2 hd1 hd2 (by omega),
    Or.inl rfl,
    digitRun_pad2 (by omega), fieldOk_pad2 (Nat.zero_le h) hh (by omega),
    digitRun_pad2 (by omega), fieldOk_pad2 (Nat.zero_le mi) hmi (by omega),
    Or.inl rfl,
    digitRun_pad2 (by omega), fieldOk_pad2 (Nat.zero_le s) (by omega) (by omega), ?_⟩
  rw [digitsVal_pad4 hy2, digitsVal_pad2 (show m ≤ 99 by omega),
    digitsVal_pad2 (show d ≤ 99 by omega), digitsVal_pad2 (show h ≤ 99 by omega),
    digitsVal_pad2 (show mi ≤ 99 by omega), digitsVal_pad2 (show s ≤ 99 by omega)]

/-! ### Claim C5 -/

/-- Claim C5, counterexample to the claim as stated: the string
`"9999-12-31T16:00:00Z"` is a well-formed `YYYY-MM-DDTHH:MM:SSZ`
timestamp, but the +8-hour shift leaves `datetime`'s supported range, so
`format_datetime` raises `OverflowError` (modelled by `none`) instead of
rendering a string. -/
theorem c5_counterexample_overflow : format_datetime "9999-12-31T16:00:00Z" = none := by decide

/-- Claim C5 (amended): for every `YYYY-MM-DDTHH:MM:SSZ` timestamp
string with a valid calendar date-time, `format_datetime` parses it,
shifts it by the fixed +8-hour offset, and renders the shifted value as
`DD Mon YYYY @ HHMM HRS` — except that when the shift passes the maximum
supported instant `9999-12-31T23:59:59` the function raises
(`OverflowError`) instead of returning a string.  (In particular
`format_datetime "2024-03-01T10:00:00Z" = "01 Mar 2024 @ 1800 HRS"`; see
the witness.) -/
theorem c5_strict_format_renders (y m d h mi s : Nat)
    (hy1 : 1 ≤ y) (hy2 : y ≤ 9999) (hm1 : 1 ≤ m) (hm2 : m ≤ 12)
    (hd1 : 1 ≤ d) (hd2 : d ≤ daysInMonth y m) (hh : h ≤ 23) (hmi : mi ≤ 59) (hs : s ≤ 59) :
    format_datetime (isoStrict y m d h mi s) =
      (addEightHours ⟨y, m, d, h, mi, s⟩).map renderOut := by
  have hd31 : d ≤ 31 := le_trans hd2 (daysInMonth_le y m)
  have hp : parseISO (isoStrict y m d h mi s).data = some ⟨y, m, d, h, mi, s⟩ :=
    parseISO_complete (lenient_isoStrict y m d h mi s hy2 hm1 hm2 hd1 hd31 hh hmi hs)
  have hc : ctorOk ⟨y, m, d, h, mi, s⟩ = true := by
    unfold ctorOk
    simp only [Bool.and_eq_true, decide_eq_true_eq]
    exact ⟨⟨hy1, hd2⟩, hs⟩
  unfold format_datetime strptimeZ
  rw [hp]
  dsimp only
  rw [if_pos hc]
  cases ha : addEightHours ⟨y, m, d, h, mi, s⟩ <;> simp [ha, Option.map]

/-- Witness for C5 at the claim's own example. -/
theorem c5_witness : isoStrict 2024 3 1 10 0 0 = "2024-03-01T10:00:00Z" ∧
    format_datetime "2024-03-01T10:00:00Z" = some "01 Mar 2024 @ 1800 HRS" := by
  have he : isoStrict 2024 3 1 10 0 0 = "2024-03-01T10:00:00Z" := by decide
  refine ⟨he, ?_⟩
  have h := c5_strict_format_renders 2024 3 1 10 0 0 (by decide) (by decide) (by decide)
    (by decide) (by decide) (by decide) (by decide) (by decide) (by decide)
  rw [he] at h
  rw [h]
  decide

/-! ### Claim C9 -/

/-- Claim C9, counterexample to the claim as stated: the string
`"2024-3-01T10:00:00Z"` does not match the two-digit
`YYYY-MM-DDTHH:MM:SSZ` layout the claim requires (its month is a single
digit), yet `format_datetime` returns normally on it, because the
compiled `strptime` pattern accepts one-digit fields. -/
theorem c9_counterexample_lenient :
    (format_datetime "2024-3-01T10:00:00Z").isSome = true ∧
      strictISOFormat "2024-3-01T10:00:00Z" = false := by
  constructor <;> decide

/-- When the dispatcher classifies the query as an event query and the
events adapter raises, the endpoint answers 500 with the exception text
(used for the propagation half of C9). -/
theorem search_event_error {w : World} {e : String}
    (hcl : w.classifyResp = Except.ok "event")
    (hf : fetch_events_from_predicthq w = Except.error e) :
    search w = ⟨500, Body.detail e⟩ := by
  unfold search searchTry
  rw [hcl]
  dsimp only
  rw [show classify_user_query "event" = "event" from by decide]
  rw [if_pos rfl, hf]

/-- If the first raw event's `start` timestamp makes `format_datetime`
raise, the whole adapter call raises with that exception. -/
theorem fetch_events_error_of_first {w : World} {cat er : String} {r : RawEvent}
    {rest : List RawEvent}
    (hcat : w.categoryResp = Except.ok cat) (hst : w.eventsStatus = 200)
    (hres : w.eventsResults = r :: rest)
    (her : format_datetimeE r.start = Except.error er) :
    fetch_events_from_predicthq w = Except.error er := by
  unfold fetch_events_from_predicthq
  rw [hcat]
  dsimp only
  rw [hst]
  rw [if_pos rfl, hres]
  simp only [mapE]
  unfold normalizeEvent
  rw [her]

/-- Claim C9 (amended): `format_datetime` returns normally exactly on
the strings accepted by the compiled `strptime` pattern for
`%Y-%m-%dT%H:%M:%SZ` — a four-digit year and one- or two-digit
month/day/hour/minute/second runs in the pattern's ranges, joined by the
literal separators matched case-insensitively — whose decoded value
passes the `datetime` constructor (valid calendar date, seconds at most
59) and whose +8-hour shift stays within the supported year range; this
is strictly more than the two-digit-only `YYYY-MM-DDTHH:MM:SSZ` format
of the claim.  On failure the exception propagates out of the formatter:
if the first event record's `start` fails to parse, the dispatcher
answers 500 with the exception's message. -/
theorem c9_parse_characterization :
    (∀ s : String, (format_datetime s).isSome = true ↔
      ∃ dt, LenientISO s.data dt ∧ ctorOk dt = true ∧ (addEightHours dt).isSome = true) ∧
    (∀ (w : World) (cat er : String) (r : RawEvent) (rest : List RawEvent),
      w.classifyResp = Except.ok "event" → w.categoryResp = Except.ok cat →
      w.eventsStatus = 200 → w.eventsResults = r :: rest →
      format_datetimeE r.start = Except.error er →
      search w = ⟨500, Body.detail er⟩) := by
  constructor
  · intro s
    constructor
    · intro h
      unfold format_datetime at h
      cases hs : strptimeZ s with
      | none => rw [hs] at h; simp at h
      | some dt =>
        rw [hs] at h
        dsimp only at h
        unfold strptimeZ at hs
        cases hp : parseISO s.data with
        | none => rw [hp] at hs; exact absurd hs (by simp)
        | some dt0 =>
          rw [hp] at hs
          dsimp only at hs
          split at hs
          case isTrue hct =>
            injection hs with hs
            subst hs
            refine ⟨dt0, parseISO_sound hp, hct, ?_⟩
            cases ha : addEightHours dt0 with
            | none => rw [ha] at h; simp at h
            | some dt2 => simp
          case isFalse => exact absurd hs (by simp)
    · rintro ⟨dt, hlen, hctor, hadd⟩
      have hp := parseISO_complete hlen
      unfold format_datetime strptimeZ
      rw [hp]
      dsimp only
      rw [if_pos hctor]
      cases ha : addEightHours dt with
      | none => rw [ha] at hadd; simp at hadd
      | some dt2 => simp [ha]
  · intro w cat er r rest hcl hcat hst hres her
    exact search_event_error hcl (fetch_events_error_of_first hcat hst hres her)

/-- A concrete world whose first raw event carries an unparseable
`start` timestamp. -/
def wBadStart : World := {
  classifyResp := Except.ok "event"
  categoryResp := Except.ok "concerts"
  eventsStatus := 200
  eventsResults := [{ title := "T", start := "bad", «end» := "bad", location := "loc" }]
  geocodeResp := fun _ => Except.ok "addr"
  eventDescResp := fun _ _ => Except.ok "desc"
  placesSearch := []
  placeDetails := fun _ => Except.ok {}
  placeDescResp := fun _ _ => Except.ok "desc"
  offeringsResp := fun _ => Except.ok ""
  placesLimit := 5
  includeOfferings := false }

/-- Witness for C9: a formatter failure on the first event record
surfaces as a 500 response carrying the exception's message. -/
theorem c9_witness :
    search wBadStart = ⟨500, Body.detail ("time data does not match format: bad")⟩ :=
  c9_parse_characterization.2 wBadStart "concerts" ("time data does not match format: bad")
    { title := "T", start := "bad", «end» := "bad", location := "loc" } []
    rfl rfl rfl rfl rfl

/-! ### Claim C3 -/

/-- Claim C3: `classify_user_query` lower-cases and trims the LLM
response; it returns `"event"` exactly when the substring `"event"`
occurs in the normalized response, and `"location"` otherwise — which
covers both the `"location"`-substring branch and the ambiguous-response
default — and it always returns one of the two labels (the
post-processing is total: it never raises). -/
theorem c3_classifier_characterization (r : String) :
    (classify_user_query r = "event" ↔ strContains (pyLower (pyStrip r)) "event" = true) ∧
    (classify_user_query r = "location" ↔ strContains (pyLower (pyStrip r)) "event" = false) ∧
    (classify_user_query r = "event" ∨ classify_user_query r = "location") := by
  unfold classify_user_query
  by_cases h : strContains (pyLower (pyStrip r)) "event" = true
  · rw [if_pos h]
    refine ⟨⟨fun _ => h, fun _ => rfl⟩, ⟨fun he => absurd he (by decide), fun hf => ?_⟩,
      Or.inl rfl⟩
    rw [h] at hf
    exact absurd hf (by decide)
  · rw [if_neg h]
    have hb : strContains (pyLower (pyStrip r)) "event" = false := by
      revert h
      cases strContains (pyLower (pyStrip r)) "event" <;> simp
    have hval :
        (if strContains (pyLower (pyStrip r)) "location" = true then "location"
          else "location") = "location" := by
      split <;> rfl
    rw [hval]
    exact ⟨⟨fun he => absurd he (by decide), fun ht => absurd ht h⟩,
      ⟨fun _ => hb, fun _ => rfl⟩, Or.inr rfl⟩

/-! ### Claim C8 -/

/-- Claim C8: when the normalized LLM response contains both `"event"`
and `"location"`, the `"event"` test runs first, so the classification
is `"event"`. -/
theorem c8_event_precedence (r : String)
    (h1 : strContains (pyLower (pyStrip r)) "event" = true)
    (_h2 : strContains (pyLower (pyStrip r)) "location" = true) :
    classify_user_query r = "event" := by
  unfold classify_user_query
  rw [if_pos h1]

/-- Witness for C8 on a response containing both substrings. -/
theorem c8_witness :
    strContains (pyLower (pyStrip " Event at a location ")) "event" = true ∧
    strContains (pyLower (pyStrip " Event at a location ")) "location" = true ∧
    classify_user_query " Event at a location " = "event" :=
  ⟨by decide, by decide, c8_event_precedence " Event at a location " (by decide) (by decide)⟩

/-! ### Claim C4 -/

/-- Claim C4, counterexample to the claim as stated: `classify_event`
does not trim the LLM response — it returns `response.text` unchanged,
so a response with a trailing newline is returned with the newline. -/
theorem c4_counterexample_not_trimmed :
    classify_event "concerts\n" ≠ pyStrip "concerts\n" := by decide

/-- Claim C4 (amended): `classify_event` returns the raw LLM response
text unchanged — with no trimming and no validation against the
eleven-value category vocabulary (a response outside the vocabulary is
passed through as-is). -/
theorem c4_raw_response_returned :
    (∀ r : String, classify_event r = r) ∧ classify_event "concerts\n" ∉ eventCategories :=
  ⟨fun _ => rfl, by decide⟩

/-! ### Claim C6 -/

/-- The phone-formatting behavior the claim describes, written from the
claim's words: strip all whitespace, require exactly eight ASCII digits,
and render `+65-XXXX-XXXX`. -/
def claimPhoneSpec : Option String → String
  | none => "None"
  | some s =>
    let cleaned := s.data.filter (fun c => !pyWhitespace c)
    if cleaned.length = 8 ∧ cleaned.all isDig then
      "+65-" ++ String.mk (cleaned.take 4) ++ "-" ++ String.mk (cleaned.drop 4)
    else "None"

/-- Claim C6, counterexample to the claim as stated.  The code removes
only space characters, not all whitespace: on `"6123\t4567"` the claim's
description yields `"+65-6123-4567"` but the code returns `"None"`.
And the code's digit test is `str.isdigit`, which also accepts
non-ASCII decimal digits: on eight Arabic-Indic digits the claim's
description yields `"None"` but the code formats the number. -/
theorem c6_counterexample :
    format_contact_number (some "6123\t4567") ≠ claimPhoneSpec (some "6123\t4567") ∧
    format_contact_number (some "٦١٢٣٤٥٦٧") ≠ claimPhoneSpec (some "٦١٢٣٤٥٦٧") := by
  constructor <;> decide

/-- The amended phone-formatting specification: only space characters
(U+0020) are removed, and the eight remaining characters must pass
Python's `str.isdigit` (decimal digits, not only ASCII). -/
def phoneSpecAmended : Option String → String
  | none => "None"
  | some s =>
    match s.data.filter (fun c => !(c == ' ')) with
    | [a, b, c, d, e, f, g, h] =>
      if [a, b, c, d, e, f, g, h].all pyIsDigit then
        "+65-" ++ String.mk [a, b, c, d] ++ "-" ++ String.mk [e, f, g, h]
      else "None"
    | _ => "None"

/-- Claim C6 (amended): `format_contact_number` returns `"None"` unless
the input with its space characters (U+0020, not all whitespace) removed
is exactly eight characters accepted by `str.isdigit`, in which case it
returns `+65-XXXX-XXXX`; in particular the claim's three examples hold. -/
theorem c6_phone_characterization :
    (∀ inp : Option String, format_contact_number inp = phoneSpecAmended inp) ∧
    format_contact_number (some "6123 4567") = "+65-6123-4567" ∧
    format_contact_number (some "123") = "None" ∧
    format_contact_number none = "None" := by
  refine ⟨?_, by decide, by decide, rfl⟩
  intro inp
  cases inp with
  | none => rfl
  | some s =>
    unfold format_contact_number phoneSpecAmended
    dsimp only
    generalize s.data.filter (fun c => !(c == ' ')) = cl
    rcases cl with _ | ⟨a, _ | ⟨b, _ | ⟨c, _ | ⟨d, _ | ⟨e, _ | ⟨f, _ | ⟨g, _ | ⟨h, _ | ⟨i, t⟩⟩⟩⟩⟩⟩⟩⟩⟩
    · simp
    · simp
    · simp
    · simp
    · simp
    · simp
    · simp
    · simp
    · dsimp only
      by_cases hall : [a, b, c, d, e, f, g, h].all pyIsDigit = true
      · rw [if_pos ⟨rfl, hall⟩, if_pos hall]
        rfl
      · rw [if_neg (fun hx => hall hx.2), if_neg hall]
    · have hlen : (a :: b :: c :: d :: e :: f :: g :: h :: i :: t).length ≠ 8 := by
        simp
      rw [if_neg (fun hx => hlen hx.1)]

/-! ### Claim C7: opening-hours machinery -/

/-- `period['open']['day'] == day` evaluates without error and is true. -/
def openDayIs (p : Period) (day : Nat) : Bool :=
  match p.«open» with
  | none => false
  | some o =>
    match o.day with
    | none => false
    | some d => decide (d = Int.ofNat day)

/-- The `"<open_time>-<close_time>"` string of a fully-keyed period. -/
def fmtP (p : Period) : String :=
  ((p.«open».bind OpenClose.time).getD "") ++ "-" ++ ((p.close.bind OpenClose.time).getD "")

/-- The last period in iteration order whose `open.day` matches `day`. -/
def lastMatch (oh : OpeningHours) (day : Nat) : Option Period :=
  ((oh.periods.getD []).filter (fun p => openDayIs p day)).getLast?

/-- All five keys the loop can read are present. -/
def periodWF (p : Period) : Bool :=
  match p.«open», p.close with
  | some o, some c => o.day.isSome && o.time.isSome && c.time.isSome
  | _, _ => false

/-- The period is missing `open` or `open.day` — keys read for every
day, so reading them raises on the very first day iteration. -/
def badOpenKey (p : Period) : Bool :=
  match p.«open» with
  | none => true
  | some o => o.day.isNone

/-- The period matches some day 0–6 but is missing `open.time`, `close`
or `close.time` — keys read only on a match. -/
def badMatchedPeriod (p : Period) : Bool :=
  match p.«open» with
  | none => false
  | some o =>
    match o.day with
    | none => false
    | some d =>
      decide (0 ≤ d) && decide (d < 7) &&
        (o.time.isNone || p.close.isNone || (p.close.bind OpenClose.time).isNone)

theorem setKey_setKey (a : List (String × String)) (k v w : String) :
    setKey (setKey a k v) k w = setKey a k w := by
  induction a with
  | nil => simp [setKey]
  | cons kv rest ih =>
    obtain ⟨k1, v1⟩ := kv
    by_cases h : k1 = k
    · simp [setKey, h]
    · simp [setKey, h, ih]

theorem lookupKey_setKey_self (a : List (String × String)) (k v : String) :
    lookupKey (setKey a k v) k = some v := by
  induction a with
  | nil => simp [setKey, lookupKey]
  | cons kv rest ih =>
    obtain ⟨k1, v1⟩ := kv
    by_cases h : k1 = k
    · simp [setKey, lookupKey, h]
    · simp [setKey, lookupKey, h, ih]

theorem lookupKey_setKey_ne (a : List (String × String)) (k v q : String) (h : k ≠ q) :
    lookupKey (setKey a k v) q = lookupKey a q := by
  induction a with
  | nil => simp [setKey, lookupKey, h]
  | cons kv rest ih =>
    obtain ⟨k1, v1⟩ := kv
    by_cases h1 : k1 = k
    · subst h1
      simp [setKey, lookupKey, h]
    · by_cases h2 : k1 = q
      · subst h2
        simp [setKey, lookupKey, h1, Ne.symm h]
      · simp [setKey, lookupKey, h1, h2, ih]

theorem mem_setKey {x : String × String} {a : List (String × String)} {k v : String}
    (h : x ∈ setKey a k v) : x = (k, v) ∨ x ∈ a := by
  induction a with
  | nil => simpa [setKey] using h
  | cons kv rest ih =>
    obtain ⟨k1, v1⟩ := kv
    by_cases h1 : k1 = k
    · simp only [setKey, h1, if_pos] at h
      rcases List.mem_cons.mp h with rfl | h
      · exact Or.inl rfl
      · exact Or.inr (List.mem_cons_of_mem _ h)
    · simp only [setKey, h1, if_neg, not_false_iff] at h
      rcases List.mem_cons.mp h with rfl | h
      · exact Or.inr (List.mem_cons_self _ _)
      · rcases ih h with h | h
        · exact Or.inl h
        · exact Or.inr (List.mem_cons_of_mem _ h)

theorem processPeriod_wf (day : Nat) (acc : List (String × String)) (p : Period)
    (h : periodWF p = true) :
    processPeriod day acc p =
      Except.ok (if openDayIs p day then setKey acc (dayNames.getD day "") (fmtP p)
        else acc) := by
  unfold periodWF at h
  cases ho : p.«open» with
  | none => rw [ho] at h; simp at h
  | some o =>
    cases hc : p.close with
    | none => rw [ho, hc] at h; simp at h
    | some c =>
      rw [ho, hc] at h
      dsimp only at h
      simp only [Bool.and_eq_true, Option.isSome_iff_exists] at h
      obtain ⟨⟨⟨d, hd⟩, t, ht⟩, ct, hct⟩ := h
      unfold processPeriod
      rw [ho]
      dsimp only [reqKey]
      rw [hd]
      dsimp only [reqKey]
      have hfmt : fmtP p = t ++ "-" ++ ct := by
        unfold fmtP
        rw [ho, hc]
        dsimp only [Option.bind]
        rw [ht, hct]
        rfl
      by_cases hdd : d = Int.ofNat day
      · rw [if_pos hdd, ht]
        dsimp only [reqKey]
        rw [hc]
        dsimp only [reqKey]
        rw [hct]
        dsimp only [reqKey]
        have hopen : openDayIs p day = true := by
          unfold openDayIs
          rw [ho]
          dsimp only
          rw [hd]
          simp only [decide_eq_true_eq]
          exact hdd
        rw [if_pos hopen, hfmt]
      · rw [if_neg hdd]
        have hopen : ¬ openDayIs p day = true := by
          unfold openDayIs
          rw [ho]
          dsimp only
          rw [hd]
          simp only [decide_eq_true_eq]
          exact hdd
        rw [if_neg hopen]

theorem foldE_processPeriod_wf (day : Nat) (ps : List Period)
    (hwf : ∀ p ∈ ps, periodWF p = true) (acc : List (String × String)) :
    foldE (processPeriod day) acc ps =
      Except.ok (ps.foldl
        (fun a p => if openDayIs p day then setKey a (dayNames.getD day "") (fmtP p) else a)
        acc) := by
  induction ps generalizing acc with
  | nil => rfl
  | cons p rest ih =>
    have hp := hwf p (List.mem_cons_self p rest)
    simp only [foldE, List.foldl_cons]
    rw [processPeriod_wf day acc p hp]
    exact ih (fun q hq => hwf q (List.mem_cons_of_mem p hq)) _

theorem innerPure_lastMatch (day : Nat) (ps : List Period) (acc : List (String × String)) :
    ps.foldl
        (fun a p => if openDayIs p day then setKey a (dayNames.getD day "") (fmtP p) else a)
        acc =
      match (ps.filter (fun p => openDayIs p day)).getLast? with
      | some p => setKey acc (dayNames.getD day "") (fmtP p)
      | none => acc := by
  induction ps generalizing acc with
  | nil => rfl
  | cons p rest ih =>
    simp only [List.foldl_cons, List.filter_cons]
    by_cases hp : openDayIs p day = true
    · rw [if_pos hp, if_pos hp, ih]
      cases hl : (rest.filter (fun q => openDayIs q day)).getLast? with
      | none =>
        have hnil : rest.filter (fun q => openDayIs q day) = [] := by
          cases hf : rest.filter (fun q => openDayIs q day) with
          | nil => rfl
          | cons x xs =>
            rw [hf] at hl
            exact absurd hl (by simp [List.getLast?])
        rw [hnil]
        simp [List.getLast?]
      | some q =>
        have hne : rest.filter (fun r2 => openDayIs r2 day) ≠ [] := by
          intro hf
          rw [hf] at hl
          exact absurd hl (by simp)
        have h2 : (p :: rest.filter (fun r2 => openDayIs r2 day)).getLast? = some q := by
          cases hf : rest.filter (fun r2 => openDayIs r2 day) with
          | nil => exact absurd hf hne
          | cons x xs =>
            rw [List.getLast?_cons_cons]
            rw [hf] at hl
            exact hl
        rw [h2]
        dsimp only
        rw [setKey_setKey]
    · rw [if_neg hp, if_neg hp, ih]

/-- One full day iteration, in its success form: overwrite the day's
entry with the last matching period, if any. -/
def applyDay (oh : OpeningHours) (acc : List (String × String)) (day : Nat) :
    List (String × String) :=
  match lastMatch oh day with
  | some p => setKey acc (dayNames.getD day "") (fmtP p)
  | none => acc

theorem openingHoursLoop_wf (oh : OpeningHours)
    (hwf : ∀ p ∈ oh.periods.getD [], periodWF p = true) :
    openingHoursLoop oh = Except.ok ((List.range 7).foldl (applyDay oh) []) := by
  unfold openingHoursLoop
  suffices h : ∀ (days : List Nat) (acc : List (String × String)),
      foldE (fun acc day => foldE (processPeriod day) acc (oh.periods.getD [])) acc days =
        Except.ok (days.foldl (applyDay oh) acc) by
    exact h _ _
  intro days
  induction days with
  | nil => intro acc; rfl
  | cons d rest ih =>
    intro acc
    simp only [foldE, List.foldl_cons]
    rw [foldE_processPeriod_wf d _ hwf acc]
    dsimp only
    rw [innerPure_lastMatch]
    exact ih _

theorem lookupKey_applyDay_self (oh : OpeningHours) (acc : List (String × String)) (d : Nat) :
    lookupKey (applyDay oh acc d) (dayNames.getD d "") =
      match lastMatch oh d with
      | some p => some (fmtP p)
      | none => lookupKey acc (dayNames.getD d "") := by
  unfold applyDay
  cases lastMatch oh d with
  | none => rfl
  | some p => exact lookupKey_setKey_self _ _ _

theorem lookupKey_applyDay_ne (oh : OpeningHours) (acc : List (String × String)) (d : Nat)
    (q : String) (h : dayNames.getD d "" ≠ q) :
    lookupKey (applyDay oh acc d) q = lookupKey acc q := by
  unfold applyDay
  cases lastMatch oh d with
  | none => rfl
  | some p => exact lookupKey_setKey_ne _ _ _ _ h

theorem lookup_fold_range (oh : OpeningHours) (d : Nat) (hd : d < 7) :
    lookupKey ((List.range 7).foldl (applyDay oh) []) (dayNames.getD d "") =
      (lastMatch oh d).map fmtP := by
  have hr : List.range 7 = [0, 1, 2, 3, 4, 5, 6] := by decide
  rw [hr]
  simp only [List.foldl_cons, List.foldl_nil]
  interval_cases d
  · rw [lookupKey_applyDay_ne _ _ 6 _ (by decide), lookupKey_applyDay_ne _ _ 5 _ (by decide),
      lookupKey_applyDay_ne _ _ 4 _ (by decide), lookupKey_applyDay_ne _ _ 3 _ (by decide),
      lookupKey_applyDay_ne _ _ 2 _ (by decide), lookupKey_applyDay_ne _ _ 1 _ (by decide),
      lookupKey_applyDay_self]
    cases lastMatch oh 0 <;> rfl
  · rw [lookupKey_applyDay_ne _ _ 6 _ (by decide), lookupKey_applyDay_ne _ _ 5 _ (by decide),
      lookupKey_applyDay_ne _ _ 4 _ (by decide), lookupKey_applyDay_ne _ _ 3 _ (by decide),
      lookupKey_applyDay_ne _ _ 2 _ (by decide), lookupKey_applyDay_self,
      lookupKey_applyDay_ne _ _ 0 _ (by decide)]
    cases lastMatch oh 1 <;> rfl
  · rw [lookupKey_applyDay_ne _ _ 6 _ (by decide), lookupKey_applyDay_ne _ _ 5 _ (by decide),
      lookupKey_applyDay_ne _ _ 4 _ (by decide), lookupKey_applyDay_ne _ _ 3 _ (by decide),
      lookupKey_applyDay_self, lookupKey_applyDay_ne _ _ 1 _ (by decide),
      lookupKey_applyDay_ne _ _ 0 _ (by decide)]
    cases lastMatch oh 2 <;> rfl
  · rw [lookupKey_applyDay_ne _ _ 6 _ (by decide), lookupKey_applyDay_ne _ _ 5 _ (by decide),
      lookupKey_applyDay_ne _ _ 4 _ (by decide), lookupKey_applyDay_self,
      lookupKey_applyDay_ne _ _ 2 _ (by decide), lookupKey_applyDay_ne _ _ 1 _ (by decide),
      lookupKey_applyDay_ne _ _ 0 _ (by decide)]
    cases lastMatch oh 3 <;> rfl
  · rw [lookupKey_applyDay_ne _ _ 6 _ (by decide), lookupKey_applyDay_ne _ _ 5 _ (by decide),
      lookupKey_applyDay_self, lookupKey_applyDay_ne _ _ 3 _ (by decide),
      lookupKey_applyDay_ne _ _ 2 _ (by decide), lookupKey_applyDay_ne _ _ 1 _ (by decide),
      lookupKey_applyDay_ne _ _ 0 _ (by decide)]
    cases lastMatch oh 4 <;> rfl
  · rw [lookupKey_applyDay_ne _ _ 6 _ (by decide), lookupKey_applyDay_self,
      lookupKey_applyDay_ne _ _ 4 _ (by decide), lookupKey_applyDay_ne _ _ 3 _ (by decide),
      lookupKey_applyDay_ne _ _ 2 _ (by decide), lookupKey_applyDay_ne _ _ 1 _ (by decide),
      lookupKey_applyDay_ne _ _ 0 _ (by decide)]
    cases lastMatch oh 5 <;> rfl
  · rw [lookupKey_applyDay_self, lookupKey_applyDay_ne _ _ 5 _ (by decide),
      lookupKey_applyDay_ne _ _ 4 _ (by decide), lookupKey_applyDay_ne _ _ 3 _ (by decide),
      lookupKey_applyDay_ne _ _ 2 _ (by decide), lookupKey_applyDay_ne _ _ 1 _ (by decide),
      lookupKey_applyDay_ne _ _ 0 _ (by decide)]
    cases lastMatch oh 6 <;> rfl

theorem mem_fold_applyDay {oh : OpeningHours} {x : String × String} :
    ∀ (days : List Nat) (acc : List (String × String)),
      x ∈ days.foldl (applyDay oh) acc →
      x ∈ acc ∨ ∃ d ∈ days, ∃ p, lastMatch oh d = some p ∧
        x = (dayNames.getD d "", fmtP p) := by
  intro days
  induction days with
  | nil => intro acc h; exact Or.inl h
  | cons d rest ih =>
    intro acc h
    simp only [List.foldl_cons] at h
    rcases ih _ h with hmem | ⟨d2, hd2, p, hp, hx⟩
    · unfold applyDay at hmem
      cases hl : lastMatch oh d with
      | none => rw [hl] at hmem; exact Or.inl hmem
      | some p =>
        rw [hl] at hmem
        rcases mem_setKey hmem with rfl | hmem
        · exact Or.inr ⟨d, List.mem_cons_self _ _, p, hl, rfl⟩
        · exact Or.inl hmem
    · exact Or.inr ⟨d2, List.mem_cons_of_mem _ hd2, p, hp, hx⟩

theorem foldE_error {σ α : Type} {f : σ → α → Except Unit σ} {p : α}
    (hp : ∀ s, f s p = Except.error ()) :
    ∀ (l : List α) (s : σ), p ∈ l → foldE f s l = Except.error () := by
  intro l
  induction l with
  | nil => intro s h; exact absurd h (List.not_mem_nil p)
  | cons a rest ih =>
    intro s h
    simp only [foldE]
    cases hf : f s a with
    | error e => cases e; rfl
    | ok s2 =>
      rcases List.mem_cons.mp h with rfl | hmem
      · rw [hp s] at hf; cases hf
      · exact ih s2 hmem

theorem processPeriod_badOpen {p : Period} (h : badOpenKey p = true) (day : Nat)
    (acc : List (String × String)) : processPeriod day acc p = Except.error () := by
  unfold badOpenKey at h
  unfold processPeriod
  cases ho : p.«open» with
  | none => rfl
  | some o =>
    rw [ho] at h
    dsimp only at h
    cases hd : o.day with
    | none =>
      dsimp only [reqKey]
      rw [hd]
    | some d => rw [hd] at h; simp [Option.isNone] at h

theorem processPeriod_badMatched {p : Period} (h : badMatchedPeriod p = true) :
    ∃ dnat : Nat, dnat < 7 ∧
      ∀ acc : List (String × String), processPeriod dnat acc p = Except.error () := by
  unfold badMatchedPeriod at h
  cases ho : p.«open» with
  | none => rw [ho] at h; simp at h
  | some o =>
    rw [ho] at h
    dsimp only at h
    cases hd : o.day with
    | none => rw [hd] at h; simp at h
    | some d =>
      rw [hd] at h
      dsimp only at h
      simp only [Bool.and_eq_true, decide_eq_true_eq] at h
      obtain ⟨⟨hd0, hd7⟩, hbad⟩ := h
      refine ⟨d.toNat, ?_, ?_⟩
      · omega
      · intro acc
        have hdd : d = Int.ofNat d.toNat := (Int.toNat_of_nonneg hd0).symm
        unfold processPeriod
        rw [ho]
        dsimp only [reqKey]
        rw [hd]
        dsimp only [reqKey]
        rw [if_pos hdd]
        cases ht : o.time with
        | none => rfl
        | some t =>
          dsimp only [reqKey]
          cases hc : p.close with
          | none => rfl
          | some c =>
            dsimp only [reqKey]
            cases hct : c.time with
            | none => rfl
            | some ct =>
              exfalso
              simp [ht, hc, hct, Option.isNone] at hbad

/-- Claim C7: for a fully-keyed `periods` list, the table maps the day
abbreviation of each day 0–6 to `"<open_time>-<close_time>"` of the
*last* period in iteration order whose `open.day` matches (overwrite
semantics), and contains only entries produced by such matches; and a
period with a missing key read by the loop — `open`/`open.day` (read on
every day iteration), or `open.time`/`close`/`close.time` (read when the
period matches a day 0–6) — makes the whole function return the empty
mapping instead of raising. -/
theorem c7_opening_hours_characterization (oh : OpeningHours) :
    ((∀ p ∈ oh.periods.getD [], periodWF p = true) →
      (∀ d : Nat, d < 7 →
        lookupKey (format_opening_hours oh) (dayNames.getD d "") =
          (lastMatch oh d).map fmtP) ∧
      (∀ x ∈ format_opening_hours oh, ∃ d : Nat, d < 7 ∧ ∃ p,
        lastMatch oh d = some p ∧ x = (dayNames.getD d "", fmtP p))) ∧
    ((∃ p ∈ oh.periods.getD [], badOpenKey p = true) →
      format_opening_hours oh = []) ∧
    ((∃ p ∈ oh.periods.getD [], badMatchedPeriod p = true) →
      format_opening_hours oh = []) := by
  refine ⟨?_, ?_, ?_⟩
  · intro hwf
    have hfold := openingHoursLoop_wf oh hwf
    unfold format_opening_hours
    rw [hfold]
    constructor
    · intro d hd
      exact lookup_fold_range oh d hd
    · intro x hx
      rcases mem_fold_applyDay _ _ hx with hmem | ⟨d, hd, q, hq, hx⟩
      · exact absurd hmem (List.not_mem_nil x)
      · exact ⟨d, by simpa using List.mem_range.mp (by simpa using hd), q, hq, hx⟩
  · rintro ⟨p, hmem, hbad⟩
    have hinner : ∀ acc : List (String × String),
        foldE (processPeriod 0) acc (oh.periods.getD []) = Except.error () :=
      fun acc => foldE_error (processPeriod_badOpen hbad 0) _ acc hmem
    have houter : openingHoursLoop oh = Except.error () := by
      unfold openingHoursLoop
      exact @foldE_error (List (String × String)) Nat
        (fun acc day => foldE (processPeriod day) acc (oh.periods.getD [])) 0 hinner
        (List.range 7) [] (by decide)
    unfold format_opening_hours
    rw [houter]
  · rintro ⟨p, hmem, hbad⟩
    obtain ⟨dnat, hlt, herr⟩ := processPeriod_badMatched hbad
    have hinner : ∀ acc : List (String × String),
        foldE (processPeriod dnat) acc (oh.periods.getD []) = Except.error () :=
      fun acc => foldE_error (herr) _ acc hmem
    have houter : openingHoursLoop oh = Except.error () := by
      unfold openingHoursLoop
      exact @foldE_error (List (String × String)) Nat
        (fun acc day => foldE (processPeriod day) acc (oh.periods.getD [])) dnat hinner
        (List.range 7) [] (List.mem_range.mpr hlt)
    unfold format_opening_hours
    rw [houter]

/-- The spec's own opening-hours example. -/
def exampleOpeningHours : OpeningHours :=
  { periods := some [{ «open» := some { day := some 1, time := some "0900" },
                       close := some { day := some 1, time := some "1800" } }] }

/-- An opening-hours value with a period missing its `open` key. -/
def malformedOpeningHours : OpeningHours := { periods := some [{ «open» := none }] }

/-- Witness for C7: the spec's example produces `Mon ↦ 0900-1800`, and a
period missing its `open` key collapses the table to the empty mapping. -/
theorem c7_witness :
    lookupKey (format_opening_hours exampleOpeningHours) (dayNames.getD 1 "") =
      some "0900-1800" ∧
    format_opening_hours malformedOpeningHours = [] := by
  constructor
  · have h := ((c7_opening_hours_characterization exampleOpeningHours).1 (by decide)).1 1
      (by decide)
    rw [h]
    decide
  · exact (c7_opening_hours_characterization malformedOpeningHours).2.1
      ⟨{ «open» := none }, by decide, by decide⟩

/-! ### Claim C10 -/

theorem mapE_mem {α β : Type} {f : α → Except String β} :
    ∀ {l : List α} {res : List β}, mapE f l = Except.ok res →
      ∀ r ∈ res, ∃ a ∈ l, f a = Except.ok r := by
  intro l
  induction l with
  | nil =>
    intro res h r hr
    simp only [mapE] at h
    injection h with h
    subst h
    exact absurd hr (List.not_mem_nil r)
  | cons a rest ih =>
    intro res h r hr
    simp only [mapE] at h
    cases hf : f a with
    | error e => rw [hf] at h; cases h
    | ok b =>
      rw [hf] at h
      dsimp only at h
      cases hrest : mapE f rest with
      | error e => rw [hrest] at h; cases h
      | ok bs =>
        rw [hrest] at h
        dsimp only at h
        injection h with h
        subst h
        rcases List.mem_cons.mp hr with rfl | hr
        · exact ⟨a, List.mem_cons_self _ _, hf⟩
        · obtain ⟨a2, ha2, hfa2⟩ := ih hrest r hr
          exact ⟨a2, List.mem_cons_of_mem _ ha2, hfa2⟩

theorem normalizePlace_citation {w : World} {p : RawPlace} {rec : PlaceRecord}
    (h : normalizePlace w p = Except.ok rec) :
    ∃ det : PlaceDetails, w.placeDetails p.place_id = Except.ok det ∧
      rec.Citation = [det.url] := by
  unfold normalizePlace at h
  cases hdet : w.placeDetails p.place_id with
  | error e => rw [hdet] at h; cases h
  | ok det =>
    rw [hdet] at h
    dsimp only at h
    cases hdesc : w.placeDescResp det.name det.types with
    | error e => rw [hdesc] at h; cases h
    | ok desc =>
      rw [hdesc] at h
      dsimp only at h
      refine ⟨det, rfl, ?_⟩
      by_cases hoff : w.includeOfferings = true
      · rw [if_pos hoff] at h
        cases hotxt : w.offeringsResp det.name with
        | error e => rw [hotxt] at h; cases h
        | ok txt =>
          rw [hotxt] at h
          dsimp only at h
          injection h with h
          rw [← h]
      · rw [if_neg hoff] at h
        injection h with h
        rw [← h]

/-- Claim C10: every normalized place record that the places adapter
returns comes from one of the searched places `p`, and its `Citation`
is exactly the one-element list `[det.url]` where `det` is the details
record the details lookup returned *for that place's `place_id`* — so
when that details record has no `url` key the Citation is `[None]`
(a one-element list containing null), not `[]` and not an error. -/
theorem c10_citation_singleton (w : World) (recs : List PlaceRecord)
    (h : fetch_locations_from_gplaces w = Except.ok (Sum.inl recs)) :
    ∀ rec ∈ recs, ∃ p ∈ w.placesSearch.take w.placesLimit, ∃ det : PlaceDetails,
      w.placeDetails p.place_id = Except.ok det ∧
      rec.Citation = [det.url] ∧ rec.Citation.length = 1 ∧
      (det.url = none → rec.Citation = [none]) := by
  intro rec hrec
  unfold fetch_locations_from_gplaces at h
  split at h
  · injection h with h
    cases h
  · cases hm : mapE (normalizePlace w) (w.placesSearch.take w.placesLimit) with
    | error e => rw [hm] at h; cases h
    | ok l =>
      rw [hm] at h
      dsimp only at h
      injection h with h
      injection h with h
      subst h
      obtain ⟨p, hp, hnorm⟩ := mapE_mem hm rec hrec
      obtain ⟨det, hdet, hcit⟩ := normalizePlace_citation hnorm
      refine ⟨p, hp, det, hdet, hcit, by rw [hcit]; rfl, ?_⟩
      intro hnone
      rw [hcit, hnone]

/-- A concrete world for the C10 witness: two searched places, one whose
details record carries a `url` and one whose details record lacks the
`url` key. -/
def wTwoPlaces : World := {
  classifyResp := Except.ok "location"
  categoryResp := Except.ok "concerts"
  eventsStatus := 200
  eventsResults := []
  geocodeResp := fun _ => Except.ok "addr"
  eventDescResp := fun _ _ => Except.ok "desc"
  placesSearch := [{ place_id := "p1" }, { place_id := "p2" }]
  placeDetails := fun pid =>
    if pid = "p1" then Except.ok { name := some "Cafe", url := some "https://maps.example/p1" }
    else Except.ok { name := some "Bar" }
  placeDescResp := fun _ _ => Except.ok "desc"
  offeringsResp := fun _ => Except.ok ""
  placesLimit := 5
  includeOfferings := false }

/-- The record `wTwoPlaces` produces for the place whose details carry a
`url`. -/
def recWithUrl : PlaceRecord :=
  { Name := some "Cafe", Address := none, OpeningHours := [], Description := "desc",
    ContactNumber := "None", Citation := [some "https://maps.example/p1"] }

/-- The record `wTwoPlaces` produces for the place whose details lack
the `url` key: its Citation is the one-element list `[none]`. -/
def recNoUrl : PlaceRecord :=
  { Name := some "Bar", Address := none, OpeningHours := [], Description := "desc",
    ContactNumber := "None", Citation := [none] }

/-- Witness for C10 on a concrete adapter run covering both halves of
the claim: the url-present place cites that url, and the url-missing
place's Citation is `[None]` (the adapter run producing `recNoUrl` is
checked by the `rfl` hypothesis). -/
theorem c10_witness :
    (∃ p ∈ wTwoPlaces.placesSearch.take wTwoPlaces.placesLimit, ∃ det : PlaceDetails,
      wTwoPlaces.placeDetails p.place_id = Except.ok det ∧
      recWithUrl.Citation = [det.url] ∧ recWithUrl.Citation.length = 1 ∧
      (det.url = none → recWithUrl.Citation = [none])) ∧
    (∃ p ∈ wTwoPlaces.placesSearch.take wTwoPlaces.placesLimit, ∃ det : PlaceDetails,
      wTwoPlaces.placeDetails p.place_id = Except.ok det ∧
      recNoUrl.Citation = [det.url] ∧ recNoUrl.Citation.length = 1 ∧
      (det.url = none → recNoUrl.Citation = [none])) ∧
    recNoUrl.Citation = [none] :=
  ⟨c10_citation_singleton wTwoPlaces [recWithUrl, recNoUrl] rfl recWithUrl
      (List.mem_cons_self _ _),
    c10_citation_singleton wTwoPlaces [recWithUrl, recNoUrl] rfl recNoUrl
      (List.mem_cons_of_mem _ (List.mem_singleton.mpr rfl)),
    rfl⟩

/-! ### Claims C1 and C2: dispatcher evaluations -/

/-- A world in which the query is classified as a location query and the
places text search returns zero results. -/
def wPlacesEmpty : World := {
  classifyResp := Except.ok "location"
  categoryResp := Except.ok "concerts"
  eventsStatus := 200
  eventsResults := []
  geocodeResp := fun _ => Except.ok "addr"
  eventDescResp := fun _ _ => Except.ok "desc"
  placesSearch := []
  placeDetails := fun _ => Except.ok {}
  placeDescResp := fun _ _ => Except.ok "desc"
  offeringsResp := fun _ => Except.ok ""
  placesLimit := 5
  includeOfferings := false }

/-- Claim C1, evaluation at the failing input: when the places search
returns zero results, `fetch_locations_from_gplaces` returns its 404
`JSONResponse` sentinel, but the dispatcher re-wraps that object in
`JSONResponse(content=...)`, whose `json.dumps` raises `TypeError` — so
the endpoint answers 500 with the serialization error, not 404 with the
not-found message. -/
theorem c1_places_empty_returns_500 :
    fetch_locations_from_gplaces wPlacesEmpty =
      Except.ok (Sum.inr ⟨404, Body.message "No results found."⟩) ∧
    search wPlacesEmpty =
      ⟨500, Body.detail "Object of type JSONResponse is not JSON serializable"⟩ ∧
    search wPlacesEmpty ≠ ⟨404, Body.message "No results found."⟩ := by
  refine ⟨rfl, rfl, ?_⟩
  decide

/-- A world in which the query is classified as an event query and the
events API answers with HTTP status 403. -/
def wEventsUpstream403 : World := {
  classifyResp := Except.ok "event"
  categoryResp := Except.ok "concerts"
  eventsStatus := 403
  eventsResults := []
  geocodeResp := fun _ => Except.ok "addr"
  eventDescResp := fun _ _ => Except.ok "desc"
  placesSearch := []
  placeDetails := fun _ => Except.ok {}
  placeDescResp := fun _ _ => Except.ok "desc"
  offeringsResp := fun _ => Except.ok ""
  placesLimit := 5
  includeOfferings := false }

/-- Claim C2, evaluation at the failing input: on a non-success upstream
status the adapter does return the status code as a sentinel
(`Sum.inr 403`), but `if not events_data:` is false for a nonzero
integer, so the dispatcher serializes the bare number with the default
status — the endpoint answers 200 with body `403`, not 404 with the
not-found message. -/
theorem c2_upstream_error_returns_200 :
    fetch_events_from_predicthq wEventsUpstream403 = Except.ok (Sum.inr 403) ∧
    search wEventsUpstream403 = ⟨200, Body.intVal 403⟩ ∧
    search wEventsUpstream403 ≠ ⟨404, Body.message "No upcoming events found."⟩ := by
  refine ⟨rfl, rfl, ?_⟩
  decide
